import Mathlib

/-!
Verification of the NASL language front-end and tree-walking interpreter of
this repository (tokenizer in `nasl-syntax/src/token.rs`, evaluator in
`nasl-interpreter/src/interpreter.rs`, `assign.rs`, `operator.rs`, parser
extensions in `nasl-syntax/src/prefix_extension.rs` and
`postfix_extension.rs`).

The Rust code is shallowly embedded: every definition mirrors the source
function it is named after.  Machine integers (`i64`, `u32`, `usize`) are
modelled as `Int`/`Nat` with explicit reductions modulo `2^w` at the points
where the source performs wrapping casts or release-mode wrapping
arithmetic.  Rust panics (division by zero, `stmts[0]` on an empty slice)
are modelled as an explicit `Outcome.panic` result.
-/

namespace NASL

/-! ## Machine-integer helpers -/

/-- Normalize an unbounded integer into the `i64` value range
`[-2^63, 2^63)`, the effect of release-mode wrapping `i64` arithmetic. -/
def wrap64 (x : Int) : Int := (x + 2 ^ 63) % 2 ^ 64 - 2 ^ 63

/-- Embeds `x as u32` on an `i64` value: truncation to the low 32 bits. -/
def toU32 (x : Int) : Nat := (x % 2 ^ 32).toNat

/-- Embeds `x as u64` / `x as usize` on an `i64` value. -/
def toU64 (x : Int) : Nat := (x % 2 ^ 64).toNat

/-- Embeds `x as i32` (then widened to `i64`) on a `u32` value `x < 2^32`. -/
def u32ToI32 (x : Nat) : Int := if x < 2 ^ 31 then (x : Int) else (x : Int) - 2 ^ 32

/-- Rust `i64` division panics when the divisor is `0` or on
`i64::MIN / -1`; elsewhere it truncates toward zero (`Int.tdiv`). -/
def i64DivOk (a b : Int) : Prop := b ≠ 0 ∧ ¬(a = -(2 ^ 63) ∧ b = -1)

instance (a b : Int) : Decidable (i64DivOk a b) := by
  unfold i64DivOk; infer_instance

/-! ## Scan phases (`ACT`)

Modelled from the spec: the `ACT` enumeration itself lives in the
`nasl-syntax` crate root, which is not under `src/`; the spec (§3, keyword
table of `token.rs`) lists its variants, and `x as i64` takes the ordinal. -/

inductive ACT where
  | Attack | Denial | DestructiveAttack | End | Flood | GatherInfo
  | Init | KillHost | MixedAttack | Scanner | Settings
  deriving DecidableEq, Repr

/-- Ordinal of an `ACT` value (`x as i64` in Rust). -/
def ACT.toI64 : ACT → Int
  | .Attack => 0 | .Denial => 1 | .DestructiveAttack => 2 | .End => 3
  | .Flood => 4 | .GatherInfo => 5 | .Init => 6 | .KillHost => 7
  | .MixedAttack => 8 | .Scanner => 9 | .Settings => 10

/-- Keyword name of an `ACT` value: `IdentifierType::ACT(c).to_string()`
through the keyword table of `token.rs` (`make_keyword_matcher`). -/
def ACT.keywordName : ACT → String
  | .Attack => "ACT_ATTACK"
  | .Denial => "ACT_DENIAL"
  | .DestructiveAttack => "ACT_DESTRUCTIVE_ATTACK"
  | .End => "ACT_END"
  | .Flood => "ACT_FLOOD"
  | .GatherInfo => "ACT_GATHER_INFO"
  | .Init => "ACT_INIT"
  | .KillHost => "ACT_KILL_HOST"
  | .MixedAttack => "ACT_MIXED_ATTACK"
  | .Scanner => "ACT_SCANNER"
  | .Settings => "ACT_SETTINGS"

/-! ## The value model (`NaslValue`, interpreter.rs) -/

/-- Embeds `NaslValue` from `nasl-interpreter/src/interpreter.rs`, extended with the
`Data` byte-buffer variant that `operator.rs` additionally matches on.
`Dict` (a `HashMap<String, NaslValue>` in the source) is modelled as an
association list. -/
inductive NaslValue where
  | String (s : String)
  | Data (bytes : List Nat)
  | Number (n : Int)
  | Array (vs : List NaslValue)
  | Dict (kvs : List (String × NaslValue))
  | Boolean (b : Bool)
  | AttackCategory (a : ACT)
  | Null
  | Exit (n : Int)

/-- Embeds `impl From<&NaslValue> for i64` (interpreter.rs:85); the `Data` arm is
modelled from the spec coercion table (`Data → 1`), since the newer impl
that knows `Data` is not under `src/`. -/
def i64Of : NaslValue → Int
  | .String _ => 1
  | .Data _ => 1
  | .Number x => x
  | .Array _ => 1
  | .Dict _ => 1
  | .Boolean b => if b then 1 else 0
  | .AttackCategory a => a.toI64
  | .Null => 0
  | .Exit x => x

/-- Embeds `impl From<NaslValue> for bool` (interpreter.rs:70); the `Data` arm is
modelled from the spec (byte-cast text judged by the `String` rule). -/
def boolOf : NaslValue → Bool
  | .String s => !s.isEmpty && s ≠ "0"
  | .Data bs => !bs.isEmpty && bs ≠ [48]
  | .Number n => n ≠ 0
  | .Array v => !v.isEmpty
  | .Dict v => !v.isEmpty
  | .Boolean b => b
  | .AttackCategory _ => true
  | .Null => false
  | .Exit n => n ≠ 0

/-- Byte-cast of a `Data` buffer to text: each byte becomes the
same-numbered code point (`x.into_iter().map(|b| b as char)`). -/
def bytesToString (bs : List Nat) : String := String.mk (bs.map Char.ofNat)

/-- Embeds `Vec::join(",")`. -/
def joinComma : List String → String
  | [] => ""
  | [s] => s
  | s :: rest => s ++ "," ++ joinComma rest

mutual

/-- Embeds `impl ToString for NaslValue` (interpreter.rs:37).  `Dict` iteration
order is unspecified in the source (a `HashMap`); the association-list
order stands in for it. -/
def valToString : NaslValue → String
  | .String x => x
  | .Data bs => bytesToString bs
  | .Number x => toString x
  | .Array x => joinComma (enumToString 0 x)
  | .Dict x => joinComma (dictToString x)
  | .Boolean b => if b then "true" else "false"
  | .Null => "\x00"
  | .Exit rc => "exit(" ++ toString rc ++ ")"
  | .AttackCategory c => ACT.keywordName c

/-- Embeds `format!("{}: {}", i, v)` for the elements of an array. -/
def enumToString (i : Nat) : List NaslValue → List String
  | [] => []
  | v :: rest => (toString i ++ ": " ++ valToString v) :: enumToString (i + 1) rest

/-- Embeds `format!("{}: {}", k, v)` for the entries of a dict. -/
def dictToString : List (String × NaslValue) → List String
  | [] => []
  | (k, v) :: rest => (k ++ ": " ++ valToString v) :: dictToString rest

end

/-! ## Errors, panics and outcomes -/

/-- Embeds `InterpretError` (interpreter.rs): a struct holding a reason string. -/
structure InterpretError where
  reason : String
  deriving DecidableEq, Repr

/-- A Rust panic reached inside the evaluator, made explicit. -/
inductive PanicKind where
  | divisionByZero
  | arithmeticOverflow
  | indexOutOfBounds
  | unimplemented
  deriving DecidableEq, Repr

/-- Result of evaluating a statement: a value (`Ok`), an in-band
`InterpretError` (`Err`), or a Rust panic. -/
inductive Outcome where
  | ok (v : NaslValue)
  | err (e : InterpretError)
  | panic (p : PanicKind)

/-! ## Token taxonomy (`nasl-syntax/src/token.rs`) -/

/-- Embeds `StringCategory` (token.rs:10). -/
inductive StringCategory where
  | Quotable
  | Unquotable
  deriving DecidableEq, Repr

/-- Embeds `Base` (token.rs:23). -/
inductive Base where
  | Binary
  | Octal
  | Base10
  | Hex
  deriving DecidableEq, Repr

/-- Embeds `Base::radix` (token.rs:62). -/
def Base.radix : Base → Nat
  | .Binary => 2
  | .Octal => 8
  | .Base10 => 10
  | .Hex => 16

/-- Embeds `Base::verifier` (token.rs:52): the digit predicate of each base. -/
def Base.verifier : Base → Char → Bool
  | .Binary, c => c = '0' || c = '1'
  | .Octal, c => '0' ≤ c && c ≤ '7'
  | .Base10, c => '0' ≤ c && c ≤ '9'
  | .Hex, c => ('0' ≤ c && c ≤ '9') || ('A' ≤ c && c ≤ 'F') || ('a' ≤ c && c ≤ 'f')

/-- Embeds `UnclosedCategory` (token.rs:74). -/
inductive UnclosedCategory where
  | String (c : StringCategory)
  deriving DecidableEq, Repr

/-- Embeds `IdentifierType` (token.rs:116). -/
inductive IdentifierType where
  | Function
  | FCTAnonArgs
  | True
  | False
  | For
  | ForEach
  | If
  | Else
  | While
  | Repeat
  | Until
  | LocalVar
  | GlobalVar
  | Null
  | Return
  | Include
  | ACT (a : ACT)
  | Exit
  | Undefined (name : String)
  deriving DecidableEq, Repr

/-- Embeds `IdentifierType::new` (token.rs:84): the keyword table. -/
def IdentifierType.new (keyword : String) : IdentifierType :=
  match keyword with
  | "function" => .Function
  | "_FCT_ANON_ARGS" => .FCTAnonArgs
  | "TRUE" => .True
  | "FALSE" => .False
  | "for" => .For
  | "foreach" => .ForEach
  | "if" => .If
  | "else" => .Else
  | "while" => .While
  | "repeat" => .Repeat
  | "until" => .Until
  | "local_var" => .LocalVar
  | "global_var" => .GlobalVar
  | "NULL" => .Null
  | "return" => .Return
  | "include" => .Include
  | "exit" => .Exit
  | "ACT_ATTACK" => .ACT .Attack
  | "ACT_DENIAL" => .ACT .Denial
  | "ACT_DESTRUCTIVE_ATTACK" => .ACT .DestructiveAttack
  | "ACT_END" => .ACT .End
  | "ACT_FLOOD" => .ACT .Flood
  | "ACT_GATHER_INFO" => .ACT .GatherInfo
  | "ACT_INIT" => .ACT .Init
  | "ACT_KILL_HOST" => .ACT .KillHost
  | "ACT_MIXED_ATTACK" => .ACT .MixedAttack
  | "ACT_SCANNER" => .ACT .Scanner
  | "ACT_SETTINGS" => .ACT .Settings
  | _ => .Undefined keyword

set_option maxHeartbeats 1000000 in
/-- Embeds `Category` (token.rs:197), re-exported by the crate as `TokenCategory`. -/
inductive Category where
  | LeftParen
  | RightParen
  | LeftBrace
  | RightBrace
  | LeftCurlyBracket
  | RightCurlyBracket
  | Comma
  | Dot
  | Percent
  | PercentEqual
  | Semicolon
  | DoublePoint
  | Tilde
  | Caret
  | Ampersand
  | AmpersandAmpersand
  | Pipe
  | PipePipe
  | Bang
  | BangEqual
  | BangTilde
  | Equal
  | EqualEqual
  | EqualTilde
  | Greater
  | GreaterGreater
  | GreaterEqual
  | GreaterLess
  | Less
  | LessLess
  | LessEqual
  | Minus
  | MinusMinus
  | MinusEqual
  | Plus
  | PlusEqual
  | PlusPlus
  | Slash
  | SlashEqual
  | Star
  | StarStar
  | StarEqual
  | GreaterGreaterGreater
  | GreaterGreaterEqual
  | LessLessEqual
  | GreaterBangLess
  | GreaterGreaterGreaterEqual
  | X
  | String (s : String)
  | Number (n : Int)
  | IPv4Address
  | IllegalIPv4Address
  | IllegalNumber (b : Base)
  | Comment
  | Identifier (k : IdentifierType)
  | Unclosed (u : UnclosedCategory)
  | UnknownBase
  | UnknownSymbol
  deriving Repr

/-- Embeds `Token` (token.rs:318): a category plus a half-open byte span. -/
structure Token where
  category : Category
  position : Nat × Nat
  deriving Repr

/-- Embeds `AssignOrder` (§3): pre- vs post-operator assignment forms. -/
inductive AssignOrder where
  | AssignReturn
  | ReturnAssign
  deriving DecidableEq, Repr

/-! ## String helpers used by the operators -/

/-- Does `pat` occur as a leading segment of `l`? If so, return what
follows it. -/
def dropPat : List Char → List Char → Option (List Char)
  | [], l => some l
  | _ :: _, [] => none
  | p :: ps, c :: cs => if p = c then dropPat ps cs else none

/-- Embeds `str::replacen(pat, "", 1)`: delete the first occurrence of `pat`. -/
def replaceFirstL (pat : List Char) : List Char → List Char
  | [] =>
    match dropPat pat [] with
    | some rest => rest
    | none => []
  | c :: cs =>
    match dropPat pat (c :: cs) with
    | some rest => rest
    | none => c :: replaceFirstL pat cs

/-- Embeds `str::replacen(pat, "", 1)` on strings. -/
def replaceFirst (s pat : String) : String := String.mk (replaceFirstL pat.toList s.toList)

/-- Embeds `str::contains(pat)`: substring test. -/
def containsSub : List Char → List Char → Bool
  | l, pat =>
    match l with
    | [] => pat.isEmpty
    | c :: cs => (dropPat pat (c :: cs)).isSome || containsSub cs pat

/-- Embeds `str::contains` on strings. -/
def strContains (hay pat : String) : Bool := containsSub hay.toList pat.toList

/-! ## Structural equality of values (`#[derive(PartialEq)]` on `NaslValue`)

`Dict` equality in the source compares `HashMap`s (order-insensitive); in
this embedding dicts are association lists and compared entrywise, which
agrees with the source on the dicts the claims exercise. -/

mutual

def nvBeq : NaslValue → NaslValue → Bool
  | .String a, .String b => a = b
  | .Data a, .Data b => a = b
  | .Number a, .Number b => a = b
  | .Array a, .Array b => nvListBeq a b
  | .Dict a, .Dict b => nvDictBeq a b
  | .Boolean a, .Boolean b => a = b
  | .AttackCategory a, .AttackCategory b => a = b
  | .Null, .Null => true
  | .Exit a, .Exit b => a = b
  | _, _ => false

def nvListBeq : List NaslValue → List NaslValue → Bool
  | [], [] => true
  | a :: as', b :: bs' => nvBeq a b && nvListBeq as' bs'
  | _, _ => false

def nvDictBeq : List (String × NaslValue) → List (String × NaslValue) → Bool
  | [], [] => true
  | (k, a) :: as', (k', b) :: bs' => k = k' && nvBeq a b && nvDictBeq as' bs'
  | _, _ => false

end

/-! ## The operator evaluator (`nasl-interpreter/src/operator.rs`) -/

/-- An abstract regular-expression engine standing in for the external
`regex` crate: compiling a pattern yields a matcher, or `none` when the
pattern does not parse. -/
def RxEngine : Type := String → Option (String → Bool)

/-- Embeds `u64` bit pattern back to `i64`. -/
def fromU64 (n : Nat) : Int := if n < 2 ^ 63 then (n : Int) else (n : Int) - 2 ^ 64

/-- Shift amount masking of release-mode Rust: `b & 63` on the `u64` bit
pattern of `b`. -/
def shAmt64 (b : Int) : Nat := (b % 64).toNat

/-- Shift amount masking for 32-bit left operands: `b & 31`. -/
def shAmt32 (b : Int) : Nat := (b % 32).toNat

/-- Embeds `match_regex` (operator.rs:69). -/
def matchRegex (rx : RxEngine) (a : NaslValue) (pat : Option NaslValue) : Outcome :=
  let right := (pat.map valToString).getD ""
  match rx right with
  | some m => .ok (.Boolean (m (valToString a)))
  | none => .err ⟨"unable to parse regex " ++ right⟩

/-- Embeds `not_match_regex` (operator.rs:77). -/
def notMatchRegex (rx : RxEngine) (a : NaslValue) (pat : Option NaslValue) : Outcome :=
  match matchRegex rx a pat with
  | .ok v => .ok (.Boolean (!boolOf v))
  | o => o

/-- The value-level arms of `OperatorExtension::operator`
(operator.rs:86-211), applied to the already-resolved left operand and
optional right operand.  Release-mode semantics: `+ - *` and shifts wrap,
shift amounts are masked; `/` and `%` panic on a zero divisor and on
`i64::MIN / -1`.  The `X` arm of the source re-evaluates statements and is
embedded in `resolve` instead; every category without an arm of its own
falls into the source's `wrong_category` catch-all. -/
def binOpEval (rx : RxEngine) (category : Category) (a : NaslValue)
    (b : Option NaslValue) : Outcome :=
  match category with
  | .Plus =>
    match a with
    | .String x => .ok (.String (x ++ ((b.map valToString).getD "")))
    | .Data x => .ok (.String (bytesToString x ++ ((b.map valToString).getD "")))
    | left => .ok (.Number (wrap64 (i64Of left + ((b.map i64Of).getD 0))))
  | .Minus =>
    match a with
    | .String x => .ok (.String (replaceFirst x ((b.map valToString).getD "")))
    | .Data x => .ok (.String (replaceFirst (bytesToString x) ((b.map valToString).getD "")))
    | left =>
      match b with
      | some right => .ok (.Number (wrap64 (i64Of left - i64Of right)))
      | none => .ok (.Number (wrap64 (-i64Of left)))
  | .Star => .ok (.Number (wrap64 (i64Of a * ((b.map i64Of).getD 0))))
  | .Slash =>
    if (b.map i64Of).getD 0 = 0 then .panic .divisionByZero
    else if i64Of a = -(2 ^ 63) ∧ (b.map i64Of).getD 0 = -1 then .panic .arithmeticOverflow
    else .ok (.Number (Int.tdiv (i64Of a) ((b.map i64Of).getD 0)))
  | .Percent =>
    if (b.map i64Of).getD 0 = 0 then .panic .divisionByZero
    else if i64Of a = -(2 ^ 63) ∧ (b.map i64Of).getD 0 = -1 then .panic .arithmeticOverflow
    else .ok (.Number (Int.tmod (i64Of a) ((b.map i64Of).getD 0)))
  | .LessLess =>
    .ok (.Number (wrap64 (i64Of a * 2 ^ shAmt64 ((b.map i64Of).getD 0))))
  | .GreaterGreater =>
    .ok (.Number (Int.fdiv (i64Of a) (2 ^ shAmt64 ((b.map i64Of).getD 0))))
  | .GreaterGreaterGreater =>
    .ok (.Number (u32ToI32 (toU32 (i64Of a) / 2 ^ shAmt32 ((b.map i64Of).getD 0))))
  | .Ampersand =>
    .ok (.Number (fromU64 (Nat.land (toU64 (i64Of a)) (toU64 ((b.map i64Of).getD 0)))))
  | .Pipe =>
    .ok (.Number (fromU64 (Nat.lor (toU64 (i64Of a)) (toU64 ((b.map i64Of).getD 0)))))
  | .Caret =>
    .ok (.Number (fromU64 (Nat.xor (toU64 (i64Of a)) (toU64 ((b.map i64Of).getD 0)))))
  | .StarStar =>
    .ok (.Number (u32ToI32 (toU32 (i64Of a) ^ toU32 ((b.map i64Of).getD 0) % 2 ^ 32)))
  | .Tilde => .ok (.Number (-i64Of a - 1))
  | .EqualTilde => matchRegex rx a b
  | .BangTilde => notMatchRegex rx a b
  | .GreaterLess =>
    .ok (.Boolean (strContains (valToString a) ((b.map valToString).getD "")))
  | .GreaterBangLess =>
    .ok (.Boolean (!strContains (valToString a) ((b.map valToString).getD "")))
  | .Bang => .ok (.Boolean (!boolOf a))
  | .AmpersandAmpersand => .ok (.Boolean (boolOf a && ((b.map boolOf).getD false)))
  | .PipePipe => .ok (.Boolean (boolOf a || ((b.map boolOf).getD false)))
  | .EqualEqual => .ok (.Boolean (nvBeq a (b.getD .Null)))
  | .BangEqual => .ok (.Boolean (!nvBeq a (b.getD .Null)))
  | .Greater => .ok (.Boolean (decide (i64Of a > (b.map i64Of).getD 0)))
  | .Less => .ok (.Boolean (decide (i64Of a < (b.map i64Of).getD 0)))
  | .GreaterEqual => .ok (.Boolean (decide (i64Of a ≥ (b.map i64Of).getD 0)))
  | .LessEqual => .ok (.Boolean (decide (i64Of a ≤ (b.map i64Of).getD 0)))
  | o => .err ⟨"wrong operator category " ++ toString (repr o)⟩

/-! ## Statement AST (`Statement`, §3)

The expression/assignment fragment exercised by the claims.  `Array`
carries the optional closing-bracket token of the richer parser variant
(`postfix_extension.rs`); the interpreter ignores it. -/

inductive Stmt where
  | Primitive (t : Token)
  | Variable (t : Token)
  | Array (t : Token) (idx : Option Stmt) (endTok : Option Token)
  | Assign (cat : Category) (order : AssignOrder) (lhs : Stmt) (rhs : Stmt)
  | Operator (cat : Category) (args : List Stmt)
  | NoOp (t : Option Token)

/-! ## Register (environment)

Modelled from the spec: `context.rs` (the `Register`/`ContextType`
definitions) is not under `src/`.  Spec §4.G gives the operations and §9
adds that `Register::named` silently returns a `Null` default on a missing
name.  The claims only ever touch the root frame, so the register is its
root frame: an ordered name → slot association list. -/

/-- A register slot: a value or a declared function (spec §3). -/
inductive ContextType where
  | Value (v : NaslValue)
  | Function (params : List String) (body : Stmt)

/-- The root frame of the register. -/
def Register : Type := List (String × ContextType)

/-- Name lookup in a frame. -/
def regLookup : Register → String → Option ContextType
  | [], _ => none
  | (k, v) :: rest, key => if k = key then some v else regLookup rest key

/-- Embeds `add_to_index(0, k, slot)` / `add_local` on the root frame: overwrite
the binding for `k`, or append it. -/
def regStore : Register → String → ContextType → Register
  | [], key, v => [(key, v)]
  | (k, w) :: rest, key, v =>
    if k = key then (key, v) :: rest else (k, w) :: regStore rest key v

/-- Embeds `Register::named` with the spec §9 `Null` default on a missing name. -/
def named (reg : Register) (key : String) : ContextType :=
  (regLookup reg key).getD (.Value .Null)

/-! ## Assignment (`nasl-interpreter/src/assign.rs`) -/

/-- Embeds `prepare_array` (assign.rs:23): coerce the current value to an array
(non-arrays become a singleton), then extend with `Null` up to
`index + 1`.  The index is `i64::from(idx) as usize`. -/
def prepare_array (idx : NaslValue) (left : NaslValue) : Nat × List NaslValue :=
  let i := toU64 (i64Of idx)
  let arr : List NaslValue :=
    match left with
    | .Array x => x
    | v => [v]
  (i, arr ++ List.replicate (i + 1 - arr.length) .Null)

/-- Embeds `i.to_string()` keys for `prepare_dict` on arrays. -/
def enumKV (i : Nat) : List NaslValue → List (String × NaslValue)
  | [] => []
  | v :: rest => (toString i, v) :: enumKV (i + 1) rest

/-- Embeds `prepare_dict` (assign.rs:39). -/
def prepare_dict (left : NaslValue) : List (String × NaslValue) :=
  match left with
  | .Array x => enumKV 0 x
  | .Dict x => x
  | .Null => []
  | x => [("0", x)]

/-- Embeds `HashMap::get`. -/
def dictGet : List (String × NaslValue) → String → Option NaslValue
  | [], _ => none
  | (k, v) :: rest, key => if k = key then some v else dictGet rest key

/-- Embeds `HashMap::insert` (replace or add an entry). -/
def dictInsert : List (String × NaslValue) → String → NaslValue →
    List (String × NaslValue)
  | [], key, v => [(key, v)]
  | (k, w) :: rest, key, v =>
    if k = key then (key, v) :: rest else (k, w) :: dictInsert rest key v

/-- An assignment combinator (`result` closure in assign.rs); panics of
the source's arithmetic are explicit in the return type. -/
def Combinator : Type := NaslValue → NaslValue → Except PanicKind NaslValue

/-- Embeds `Interpreter::handle_dict` (assign.rs:76). -/
def handle_dict (reg : Register) (key : String) (idx : String) (left : NaslValue)
    (right : NaslValue) (order : AssignOrder) (result : Combinator) :
    Register × Outcome :=
  let dict := prepare_dict left
  let original := (dictGet dict idx).getD .Null
  match result original right with
  | .error p => (reg, .panic p)
  | .ok res =>
    let reg' := regStore reg key (.Value (.Dict (dictInsert dict idx res)))
    match order with
    | .ReturnAssign => (reg', .ok original)
    | .AssignReturn => (reg', .ok res)

/-- Embeds `Interpreter::handle_array` (assign.rs:107).  After `prepare_array`
the index is in bounds, so the source's `arr[idx]` cannot panic. -/
def handle_array (reg : Register) (key : String) (idx : NaslValue)
    (left : NaslValue) (right : NaslValue) (order : AssignOrder)
    (result : Combinator) : Register × Outcome :=
  let (i, arr) := prepare_array idx left
  let orig := arr.getD i .Null
  match result orig right with
  | .error p => (reg, .panic p)
  | .ok res =>
    let reg' := regStore reg key (.Value (.Array (arr.set i res)))
    match order with
    | .ReturnAssign => (reg', .ok orig)
    | .AssignReturn => (reg', .ok res)

/-- Embeds `Interpreter::named_value` (assign.rs:61): current value of `key`,
with the in-source `Null` default for a missing name; a function slot is
not assignable. -/
def named_value (reg : Register) (key : String) : Except InterpretError NaslValue :=
  match (regLookup reg key).getD (.Value .Null) with
  | .Function _ _ => .error ⟨key ++ " is a function and not assignable."⟩
  | .Value v => .ok v

/-- Embeds `Interpreter::dynamic_return` (assign.rs:147). -/
def dynamic_return (reg : Register) (key : String) (order : AssignOrder)
    (lookup : Option NaslValue) (right : NaslValue) (result : Combinator) :
    Register × Outcome :=
  match named_value reg key with
  | .error e => (reg, .err e)
  | .ok left =>
    match lookup with
    | none =>
      match result left right with
      | .error p => (reg, .panic p)
      | .ok res =>
        let reg' := regStore reg key (.Value res)
        match order with
        | .AssignReturn => (reg', .ok res)
        | .ReturnAssign => (reg', .ok left)
    | some idx =>
      match idx with
      | .String s => handle_dict reg key s left right order result
      | _ =>
        match left with
        | .Dict _ => handle_dict reg key (valToString idx) left right order result
        | _ => handle_array reg key idx left right order result

/-- Embeds `Interpreter::store_return` (assign.rs:136). -/
def store_return (reg : Register) (key : String) (lookup : Option NaslValue)
    (right : NaslValue) (result : Combinator) : Register × Outcome :=
  dynamic_return reg key .AssignReturn lookup right result

/-- Embeds `Interpreter::without_right` (assign.rs:180). -/
def without_right (reg : Register) (order : AssignOrder) (key : String)
    (lookup : Option NaslValue) (result : Combinator) : Register × Outcome :=
  dynamic_return reg key order lookup .Null result

/-- The `>>>=` combinator (assign.rs:231): both operands are cast to
`u32` and the left is shifted **left** (`left << right`), the result
widened back to `i64` (zero-extension of the `u32`). -/
def shrUnsignedAssignComb (l r : NaslValue) : Except PanicKind NaslValue :=
  .ok (.Number ((((toU32 (i64Of l) * 2 ^ (toU32 (i64Of r) % 32)) % 2 ^ 32 : Nat) : Int)))

/-- The category dispatch of `AssignExtension::assign` (assign.rs:209),
after the left-hand side has been decomposed into `key`/`lookup` and the
right-hand side resolved to `val`. -/
def assignOp (reg : Register) (key : String) (lookup : Option NaslValue)
    (val : NaslValue) (category : Category) (order : AssignOrder) :
    Register × Outcome :=
  match category with
  | .Equal => store_return reg key lookup val fun _ right => .ok right
  | .PlusEqual => store_return reg key lookup val fun l r =>
      .ok (.Number (wrap64 (i64Of l + i64Of r)))
  | .MinusEqual => store_return reg key lookup val fun l r =>
      .ok (.Number (wrap64 (i64Of l - i64Of r)))
  | .SlashEqual => store_return reg key lookup val fun l r =>
      if i64Of r = 0 then .error .divisionByZero
      else if i64Of l = -(2 ^ 63) ∧ i64Of r = -1 then .error .arithmeticOverflow
      else .ok (.Number (Int.tdiv (i64Of l) (i64Of r)))
  | .StarEqual => store_return reg key lookup val fun l r =>
      .ok (.Number (wrap64 (i64Of l * i64Of r)))
  | .GreaterGreaterEqual => store_return reg key lookup val fun l r =>
      .ok (.Number (Int.fdiv (i64Of l) (2 ^ shAmt64 (i64Of r))))
  | .LessLessEqual => store_return reg key lookup val fun l r =>
      .ok (.Number (wrap64 (i64Of l * 2 ^ shAmt64 (i64Of r))))
  | .GreaterGreaterGreaterEqual => store_return reg key lookup val shrUnsignedAssignComb
  | .PercentEqual => store_return reg key lookup val fun l r =>
      if i64Of r = 0 then .error .divisionByZero
      else if i64Of l = -(2 ^ 63) ∧ i64Of r = -1 then .error .arithmeticOverflow
      else .ok (.Number (Int.tmod (i64Of l) (i64Of r)))
  | .PlusPlus => without_right reg order key lookup fun l _ =>
      .ok (.Number (wrap64 (i64Of l + 1)))
  | .MinusMinus => without_right reg order key lookup fun l _ =>
      .ok (.Number (wrap64 (i64Of l - 1)))
  | _ => (reg, .err ⟨"invalid assign category"⟩)

/-! ## The evaluator (`Interpreter::resolve`, interpreter.rs:153) -/

/-- Embeds `TryFrom<&Token> for NaslValue` (interpreter.rs:100). -/
def primValue (t : Token) : Outcome :=
  match t.category with
  | .String s => .ok (.String s)
  | .Identifier (.Undefined id) => .ok (.String id)
  | .Number n => .ok (.Number n)
  | _ => .err ⟨"invalid primitive"⟩

/-- Embeds `Interpreter::identifier` (interpreter.rs:145). -/
def identifier (t : Token) : Except InterpretError String :=
  match t.category with
  | .Identifier (.Undefined x) => .ok x
  | _ => .error ⟨"unexpected category"⟩

/-- The `for _ in 1..repeat-1 { self.resolve(repeatable)?; }` loop of the
`X` operator arm (operator.rs:205), with `?`-propagation of errors. -/
def xLoop (f : Register → Register × Outcome) : Nat → Register →
    Register × Option Outcome
  | 0, reg => (reg, none)
  | k + 1, reg =>
    match f reg with
    | (reg', .ok _) => xLoop f k reg'
    | (reg', o) => (reg', some o)

/-- Embeds `Interpreter::resolve` (interpreter.rs:153) on the embedded fragment,
together with `AssignExtension::assign` (assign.rs:192) and
`OperatorExtension::operator` (operator.rs:86).  The register threads
through; `Outcome.panic` marks the source's panics (`stmts[i]` slice
indexing in `execute`, operator.rs:20, and division by zero).  The `X`
arm's loop `for _ in 1..repeat - 1` (operator.rs:205) computes
`repeat - 1` in wrapping (release-mode) `i64` arithmetic, so it runs
`(wrap64 (repeat - 1) - 1).toNat` iterations — in particular
`2^63 - 2` of them at `repeat = i64::MIN`.  The source's
`named(..).ok_or_else(..)` on the `Variable` and `Array` arms is
dead code under the spec-modelled `named` that always yields a slot. -/
def resolve (rx : RxEngine) : Stmt → Register → Register × Outcome
  | .Primitive t => fun reg => (reg, primValue t)
  | .Variable t => fun reg =>
    match primValue t with
    | .ok nameVal =>
      match named reg (valToString nameVal) with
      | .Function _ _ => (reg, .panic .unimplemented)
      | .Value result => (reg, .ok result)
    | o => (reg, o)
  | .Array t pos _ => fun reg =>
    match identifier t with
    | .error e => (reg, .err e)
    | .ok name =>
      match pos with
      | none =>
        match named reg name with
        | .Value v => (reg, .ok v)
        | _ => (reg, .err ⟨"Internal error statement."⟩)
      | some p =>
        match named reg name with
        | .Value (.Array x) =>
          match resolve rx p reg with
          | (reg1, .ok pv) =>
            match x.get? (toU64 (i64Of pv)) with
            | some r => (reg1, .ok r)
            | none =>
              (reg1, .err ⟨"positiong " ++ toString (toU64 (i64Of pv)) ++ " not found"⟩)
          | other => other
        | .Value (.Dict x) =>
          match resolve rx p reg with
          | (reg1, .ok pv) =>
            match dictGet x (valToString pv) with
            | some r => (reg1, .ok r)
            | none => (reg1, .err ⟨valToString pv ++ " not found."⟩)
          | other => other
        | _ => (reg, .err ⟨"Internal error statement."⟩)
  | .Assign cat order lhs rhs => fun reg =>
    match lhs with
    | .Variable tok =>
      match identifier tok with
      | .error e => (reg, .err e)
      | .ok key =>
        match resolve rx rhs reg with
        | (reg1, .ok val) => assignOp reg1 key none val cat order
        | other => other
    | .Array tok (some stmt) _ =>
      match identifier tok with
      | .error e => (reg, .err e)
      | .ok key =>
        match resolve rx stmt reg with
        | (reg1, .ok idxv) =>
          match resolve rx rhs reg1 with
          | (reg2, .ok val) => assignOp reg2 key (some idxv) val cat order
          | other => other
        | other => other
    | _ => (reg, .err ⟨"unsupported statement as assign left"⟩)
  | .Operator cat args => fun reg =>
    match cat with
    | .X =>
      match args with
      | s0 :: s1 :: _ =>
        match resolve rx s1 reg with
        | (reg1, .ok last) =>
          let rep := i64Of last
          if rep = 0 then (reg1, .ok .Null)
          else
            match xLoop (fun r => resolve rx s0 r) (wrap64 (rep - 1) - 1).toNat reg1 with
            | (reg2, none) => resolve rx s0 reg2
            | (reg2, some o) => (reg2, o)
        | other => other
      | _ => (reg, .panic .indexOutOfBounds)
    | _ =>
      match args with
      | [] => (reg, .panic .indexOutOfBounds)
      | [s0] =>
        match resolve rx s0 reg with
        | (reg1, .ok a) => (reg1, binOpEval rx cat a none)
        | other => other
      | s0 :: s1 :: _ =>
        match resolve rx s0 reg with
        | (reg1, .ok a) =>
          match resolve rx s1 reg1 with
          | (reg2, .ok b) => (reg2, binOpEval rx cat a (some b))
          | other => other
        | other => other
  | .NoOp _ => fun reg => (reg, .ok .Null)

/-! ## Parser extensions (`prefix_extension.rs`, `postfix_extension.rs`) -/

/-- Embeds `SyntaxError` payloads relevant here (`unexpected_token!`). -/
inductive SyntaxError where
  | unexpectedToken (t : Token)
  | unexpectedEnd
  deriving Repr

/-- Embeds `End` from `lexer.rs`: whether a statement ended at a terminator. -/
inductive ParseEnd where
  | Done (c : Category)
  | Continue
  deriving Repr

/-- Embeds `Operation` (operation.rs is not under `src/`; spec §2.D lists the
classes). -/
inductive Operation where
  | Operator (c : Category)
  | Primitive
  | Variable
  | Grouping (c : Category)
  | Assign (c : Category)
  | Keyword (k : IdentifierType)
  | NoOp

/-- Embeds `Lexer::as_assign_statement` (postfix_extension.rs:30): a postfix
`++`/`--` on a variable or array target becomes
`Assign(op, ReturnAssign, target, NoOp)`. -/
def as_assign_statement (lhs : Stmt) (token : Token) (assign : Category) :
    Option (Except SyntaxError (ParseEnd × Stmt)) :=
  match lhs with
  | .Variable tok =>
    some (.ok (.Continue,
      .Assign assign .ReturnAssign (.Variable tok) (.NoOp none)))
  | .Array tok resolver endTok =>
    some (.ok (.Continue,
      .Assign assign .ReturnAssign (.Array tok resolver endTok) (.NoOp none)))
  | _ => some (.error (.unexpectedToken token))

/-- Embeds `Postfix::postfix_statement` (postfix_extension.rs:60). -/
def postfix_statement (op : Operation) (token : Token) (lhs : Stmt) :
    Option (Except SyntaxError (ParseEnd × Stmt)) :=
  match op with
  | .Assign .PlusPlus => as_assign_statement lhs token .PlusPlus
  | .Assign .MinusMinus => as_assign_statement lhs token .MinusMinus
  | _ => none

/-- Embeds `Lexer::parse_prefix_assign_operator` (prefix_extension.rs:35), after
the lexer has already fetched and parsed the target that follows the
prefix `++`/`--` (the `self.token()`/`parse_variable` steps are elided):
the result is `Assign(op, AssignReturn, target, NoOp)`. -/
def parse_prefix_assign_operator (assign : Category) (token : Token)
    (parsedNext : Stmt) : Except SyntaxError Stmt :=
  match parsedNext with
  | .Variable value =>
    .ok (.Assign assign .AssignReturn (.Variable value) (.NoOp none))
  | .Array tok resolver endTok =>
    .ok (.Assign assign .AssignReturn (.Array tok resolver endTok) (.NoOp none))
  | _ => .error (.unexpectedToken token)

/-! ## Shared fixtures for the claim theorems -/

/-- A regex engine that parses nothing; the claims below never reach the
regex arms. -/
def rxNone : RxEngine := fun _ => none

/-- An `Identifier(Undefined(name))` token. -/
def identTok (name : String) : Token := ⟨.Identifier (.Undefined name), (0, 0)⟩

/-- A numeric literal statement. -/
def numStmt (n : Int) : Stmt := .Primitive ⟨.Number n, (0, 0)⟩

/-- A string literal statement. -/
def strStmt (s : String) : Stmt := .Primitive ⟨.String s, (0, 0)⟩

/-- A variable read. -/
def varStmt (name : String) : Stmt := .Variable (identTok name)

/-- Run statements in order, keeping the register (the repository's
driver resolves each top-level statement in turn). -/
def runStmts (rx : RxEngine) (stmts : List Stmt) (reg : Register) : Register :=
  stmts.foldl (fun r s => (resolve rx s r).1) reg

/-- Is the value a `String` or `Data` (the concatenating cases of `+`)? -/
def isTextual : NaslValue → Bool
  | .String _ => true
  | .Data _ => true
  | _ => false

/-- Is the value an `Array`? -/
def isArr : NaslValue → Bool
  | .Array _ => true
  | _ => false

/-- Did evaluation end in a Rust panic? -/
def Outcome.isPanic : Outcome → Bool
  | .panic _ => true
  | _ => false

/-! ## Cursor

Modelled from the spec: `cursor.rs` is not under `src/`; spec §2.A has it
peek/advance over a UTF-8 source string while tracking the consumed byte
offset. -/

/-- Remaining characters plus the byte offset consumed so far. -/
structure Cursor where
  rest : List Char
  consumed : Nat
  deriving Repr

/-- Embeds `Cursor::peek(n)`: look ahead without consuming. -/
def Cursor.peek (cur : Cursor) (n : Nat) : Option Char := cur.rest.get? n

/-- Embeds `Cursor::advance`: consume one character, adding its UTF-8 width to
the byte offset. -/
def Cursor.advance : Cursor → Option (Char × Cursor)
  | ⟨[], _⟩ => none
  | ⟨c :: rest, k⟩ => some (c, ⟨rest, k + c.utf8Size⟩)

/-- Embeds `Cursor::is_eof`. -/
def Cursor.isEof (cur : Cursor) : Bool := cur.rest.isEmpty

/-- Embeds `Cursor::advance` with the character discarded. -/
def advance1 (cur : Cursor) : Cursor :=
  match cur.advance with
  | some (_, c) => c
  | none => cur

/-- Embeds `Cursor::skip_while(predicate)`, also returning the consumed
characters (the source reads them back by slicing `code` with the byte
range, which yields the same characters). -/
def skipWhileAccL (p : Char → Bool) : List Char → Nat → List Char × Cursor
  | [], k => ([], ⟨[], k⟩)
  | c :: rest, k =>
    if p c then
      let (acc, cur') := skipWhileAccL p rest (k + c.utf8Size)
      (c :: acc, cur')
    else ([], ⟨c :: rest, k⟩)

/-- Embeds `skip_while` on a cursor. -/
def skipWhileAcc (p : Char → Bool) (cur : Cursor) : List Char × Cursor :=
  skipWhileAccL p cur.rest cur.consumed

/-- The stateful predicate of the `'` arm (token.rs:692): stop at an
unescaped `'`, tracking whether the previous character was an unconsumed
backslash. -/
def skipQuotableL : Bool → List Char → Nat → List Char × Cursor
  | _, [], k => ([], ⟨[], k⟩)
  | bs, c :: rest, k =>
    if !bs && c = '\'' then ([], ⟨c :: rest, k⟩)
    else
      let (acc, cur') := skipQuotableL (!bs && c = '\\') rest (k + c.utf8Size)
      (c :: acc, cur')

/-! ## Tokenizer (`nasl-syntax/src/token.rs`) -/

/-- Embeds `str::replace(pat, rep)`: replace every occurrence, scanning left to
right (fuel-driven; the fuel is the input length, which suffices for the
non-empty patterns used here). -/
def replaceAllL (pat rep : List Char) : Nat → List Char → List Char
  | 0, l => l
  | fuel + 1, l =>
    match l with
    | [] => []
    | c :: cs =>
      match dropPat pat l with
      | some rest => rep ++ replaceAllL pat rep fuel rest
      | none => c :: replaceAllL pat rep fuel cs

/-- Embeds `str::replace` on strings. -/
def replaceAllStr (s pat rep : String) : String :=
  String.mk (replaceAllL pat.toList rep.toList s.toList.length s.toList)

/-- The escape-interpretation chain of `tokenize_string` for Unquotable
strings (token.rs:491-499), in source order. -/
def escapeUnquotable (raw : String) : String :=
  let s := replaceAllStr raw "\\n" "\n"
  let s := replaceAllStr s "\\\\" "\\"
  let s := replaceAllStr s "\\\"" "\""
  let s := replaceAllStr s "\\'" "'"
  let s := replaceAllStr s "\\r" "\r"
  replaceAllStr s "\\t" "\t"

/-- Build a token ending at the cursor's consumed offset. -/
def mkTok (c : Category) (start : Nat) (cur : Cursor) : Token × Cursor :=
  (⟨c, (start, cur.consumed)⟩, cur)

/-- Embeds `Tokenizer::tokenize_string` (token.rs:469): the span starts after
the opening delimiter; on end-of-input an `Unclosed` token is produced,
otherwise the body (escape-interpreted for Unquotable) becomes a
`String` token and the closing delimiter is skipped. -/
def tokenize_string (cat : StringCategory)
    (skipFn : Cursor → List Char × Cursor) (cur : Cursor) : Token × Cursor :=
  let start := cur.consumed
  let (body, cur1) := skipFn cur
  if cur1.isEof then
    (⟨.Unclosed (.String cat), (start, cur1.consumed)⟩, cur1)
  else
    let raw := String.mk body
    let result :=
      match cat with
      | .Quotable => raw
      | .Unquotable => escapeUnquotable raw
    (⟨.String result, (start, cur1.consumed)⟩, advance1 cur1)

/-- Embeds `Tokenizer::tokenize_greater` (token.rs:393); `cur` sits just past
the initial `>` and `start` is its byte position. -/
def tokenize_greater (start : Nat) (cur : Cursor) : Token × Cursor :=
  match cur.peek 0 with
  | some '=' => mkTok .GreaterEqual start (advance1 cur)
  | some '<' => mkTok .GreaterLess start (advance1 cur)
  | some '>' =>
    let cur1 := advance1 cur
    match cur1.peek 0 with
    | some '>' =>
      let cur2 := advance1 cur1
      if cur2.peek 0 = some '=' then
        mkTok .GreaterGreaterGreaterEqual start (advance1 cur2)
      else
        mkTok .GreaterGreaterGreater start cur2
    | some '=' => mkTok .GreaterGreaterEqual start (advance1 cur1)
    | _ => mkTok .GreaterGreater start cur1
  | some '!' =>
    if cur.peek 1 = some '<' then
      mkTok .GreaterBangLess start (advance1 (advance1 cur))
    else
      mkTok .Greater start cur
  | _ => mkTok .Greater start cur

/-- Embeds `Tokenizer::tokenize_less` (token.rs:443). -/
def tokenize_less (start : Nat) (cur : Cursor) : Token × Cursor :=
  match cur.peek 0 with
  | some '=' => mkTok .LessEqual start (advance1 cur)
  | some '<' =>
    let cur1 := advance1 cur
    match cur1.peek 0 with
    | some '=' => mkTok .LessLessEqual start (advance1 cur1)
    | _ => mkTok .LessLess start cur1
  | _ => mkTok .Less start cur

/-- The `two_symbol_token!` macro (token.rs:641). -/
def twoSymbol (cur : Cursor) (start : Nat) (single : Category)
    (pairs : List (Char × Category)) : Token × Cursor :=
  match cur.peek 0 with
  | some c =>
    match pairs.find? (fun p => p.1 = c) with
    | some pc => mkTok pc.2 start (advance1 cur)
    | none => mkTok single start cur
  | none => mkTok single start cur

/-- Embeds `Tokenizer::may_parse_ipv4` (token.rs:510).  `char::is_numeric` is
modelled as `Char.isDigit` (they agree on the ASCII sources at issue). -/
def may_parse_ipv4 (base : Base) (start : Nat) (cur : Cursor) :
    Option (Token × Cursor) :=
  if base = .Base10 ∧ cur.peek 0 = some '.' ∧
      ((cur.peek 1).map Char.isDigit).getD false then
    let cur2 := (skipWhileAcc base.verifier (advance1 cur)).2
    if cur2.peek 0 = some '.' then
      if ((cur2.peek 1).map Char.isDigit).getD false then
        let cur3 := (skipWhileAcc base.verifier (advance1 cur2)).2
        if cur3.peek 0 = some '.' ∧ ((cur3.peek 1).map Char.isDigit).getD false then
          let cur4 := (skipWhileAcc base.verifier (advance1 cur3)).2
          some (⟨.IPv4Address, (start, cur4.consumed)⟩, cur4)
        else
          some (⟨.IllegalIPv4Address, (start, cur3.consumed)⟩, cur3)
      else
        some (⟨.IllegalIPv4Address, (start, cur2.consumed)⟩, cur2)
    else
      some (⟨.IPv4Address, (start, cur2.consumed)⟩, cur2)
  else
    none

/-- Value of one digit character. -/
def digitVal (c : Char) : Nat :=
  if '0' ≤ c ∧ c ≤ '9' then c.toNat - 48
  else if 'a' ≤ c ∧ c ≤ 'f' then c.toNat - 87
  else if 'A' ≤ c ∧ c ≤ 'F' then c.toNat - 55
  else 0

/-- Accumulating radix parse. -/
def parseRadixAux (radix : Nat) (acc : Nat) : List Char → Nat
  | [] => acc
  | c :: cs => parseRadixAux radix (acc * radix + digitVal c) cs

/-- Embeds `i64::from_str_radix` on the already-verified digit run: fails
(`none`) when the value overflows `i64`. -/
def from_str_radix (s : List Char) (radix : Nat) : Option Int :=
  let v := parseRadixAux radix 0 s
  if v < 2 ^ 63 then some (v : Int) else none

/-- Embeds `Tokenizer::tokenize_number` (token.rs:552).  `current` is the
already-consumed first digit; `0b`/`0x` move the span start past the
prefix and a leading octal `0` past itself, so those bytes end up in no
token span. -/
def tokenize_number (start : Nat) (current : Char) (cur : Cursor) :
    Token × Cursor :=
  let mayBase : Option (Base × Nat × Cursor) :=
    if current = '0' then
      match cur.peek 0 with
      | some 'b' => some (.Binary, start + 2, advance1 cur)
      | some 'x' => some (.Hex, start + 2, advance1 cur)
      | some c =>
        if '0' ≤ c ∧ c ≤ '7' then some (.Octal, start + 1, cur)
        else if c.isAlpha then none
        else some (.Base10, start, cur)
      | none => some (.Base10, start, cur)
    else
      some (.Base10, start, cur)
  match mayBase with
  | none => (⟨.UnknownBase, (start, cur.consumed)⟩, cur)
  | some (base, start', cur') =>
    let (skipped, cur1) := skipWhileAcc base.verifier cur'
    match may_parse_ipv4 base start' cur1 with
    | some tc => tc
    | none =>
      if start' = cur1.consumed then
        (⟨.IllegalNumber base, (start', start')⟩, cur1)
      else
        let digits := if start' = start then current :: skipped else skipped
        match from_str_radix digits base.radix with
        | some num => (⟨.Number num, (start', cur1.consumed)⟩, cur1)
        | none => (⟨.IllegalNumber base, (start', start')⟩, cur1)

/-- Embeds `Tokenizer::tokenize_identifier` (token.rs:615), including the
special handling of a bare `x` followed by a number (the repeat
operator).  `char::is_alphabetic`/`is_numeric` are modelled by the ASCII
`Char.isAlpha`/`Char.isDigit`. -/
def tokenize_identifier (start : Nat) (current : Char) (cur : Cursor) :
    Token × Cursor :=
  let (skipped, cur1) := skipWhileAcc (fun c => c.isAlpha || c = '_' || c.isDigit) cur
  let lookup := String.mk (current :: skipped)
  let endPos := cur1.consumed
  if lookup ≠ "x" then
    (⟨.Identifier (IdentifierType.new lookup), (start, endPos)⟩, cur1)
  else
    let cur2 := (skipWhileAcc Char.isWhitespace cur1).2
    if ((cur2.peek 0).map Char.isDigit).getD false then
      (⟨.X, (start, endPos)⟩, cur2)
    else
      (⟨.Identifier (.Undefined lookup), (start, endPos)⟩, cur2)

/-- Embeds `Iterator::next for Tokenizer` (token.rs:659): skip whitespace,
record the start offset, consume one character and dispatch. -/
def nextToken (cur0 : Cursor) : Option (Token × Cursor) :=
  let cur := (skipWhileAcc Char.isWhitespace cur0).2
  let start := cur.consumed
  match cur.advance with
  | none => none
  | some (c, cur1) =>
    some (match c with
      | '(' => mkTok .LeftParen start cur1
      | ')' => mkTok .RightParen start cur1
      | '[' => mkTok .LeftBrace start cur1
      | ']' => mkTok .RightBrace start cur1
      | '{' => mkTok .LeftCurlyBracket start cur1
      | '}' => mkTok .RightCurlyBracket start cur1
      | ',' => mkTok .Comma start cur1
      | '.' => mkTok .Dot start cur1
      | '#' => mkTok .Comment start (skipWhileAcc (fun ch => ch ≠ '\n') cur1).2
      | '-' => twoSymbol cur1 start .Minus [('-', .MinusMinus), ('=', .MinusEqual)]
      | '+' => twoSymbol cur1 start .Plus [('+', .PlusPlus), ('=', .PlusEqual)]
      | '%' => twoSymbol cur1 start .Percent [('=', .PercentEqual)]
      | ';' => mkTok .Semicolon start cur1
      | '/' => twoSymbol cur1 start .Slash [('=', .SlashEqual)]
      | '*' => twoSymbol cur1 start .Star [('*', .StarStar), ('=', .StarEqual)]
      | ':' => mkTok .DoublePoint start cur1
      | '~' => mkTok .Tilde start cur1
      | '&' => twoSymbol cur1 start .Ampersand [('&', .AmpersandAmpersand)]
      | '|' => twoSymbol cur1 start .Pipe [('|', .PipePipe)]
      | '^' => mkTok .Caret start cur1
      | '!' => twoSymbol cur1 start .Bang [('=', .BangEqual), ('~', .BangTilde)]
      | '=' => twoSymbol cur1 start .Equal [('=', .EqualEqual), ('~', .EqualTilde)]
      | '>' => tokenize_greater start cur1
      | '<' => tokenize_less start cur1
      | '"' =>
        tokenize_string .Unquotable (fun cu => skipWhileAcc (fun ch => ch ≠ '"') cu) cur1
      | '\'' =>
        tokenize_string .Quotable (fun cu => skipQuotableL false cu.rest cu.consumed) cur1
      | ch =>
        if '0' ≤ ch ∧ ch ≤ '9' then tokenize_number start ch cur1
        else if ch.isAlpha || ch = '_' then tokenize_identifier start ch cur1
        else mkTok .UnknownSymbol start cur1)

/-- Collect tokens; each step consumes at least one character, so the
input length bounds the number of tokens. -/
def tokenizeLoop : Nat → Cursor → List Token
  | 0, _ => []
  | fuel + 1, cur =>
    match nextToken cur with
    | none => []
    | some (t, cur') => t :: tokenizeLoop fuel cur'

/-- Embeds `Tokenizer::new(code).collect::<Vec<Token>>()`. -/
def tokenize (code : String) : List Token :=
  tokenizeLoop (code.toList.length + 1) ⟨code.toList, 0⟩

/-- Does byte `i` of the source lie inside some emitted token's span? -/
def inSomeSpan (toks : List Token) (i : Nat) : Bool :=
  toks.any fun t => t.position.1 ≤ i && i < t.position.2

/-- Total UTF-8 byte length of a character list. -/
def utf8Total : List Char → Nat
  | [] => 0
  | c :: cs => c.utf8Size + utf8Total cs

/-- Statement `a++` as the parser emits it (postfix form). -/
def incrStmt : Stmt := .Assign .PlusPlus .ReturnAssign (varStmt "a") (.NoOp none)

/-- Statement `(a++) x n`: the repeat operator applied to an expression
whose evaluation count is observable in the register. -/
def xRepeatStmt (n : Int) : Stmt := .Operator .X [incrStmt, numStmt n]

/-! # Supporting lemmas -/

/-- Values already inside the `i64` range are fixed by `wrap64`. -/
theorem wrap64_eq_self {x : Int} (h1 : -(2 ^ 63) ≤ x) (h2 : x < 2 ^ 63) :
    wrap64 x = x := by
  unfold wrap64
  rw [Int.emod_eq_of_lt (by omega) (by omega)]
  omega

/-- Range of `wrap64`: the result always lands in the `i64` range. -/
theorem wrap64_mem (x : Int) : -(2 ^ 63) ≤ wrap64 x ∧ wrap64 x < 2 ^ 63 := by
  unfold wrap64
  have h1 : 0 ≤ (x + 2 ^ 63) % 2 ^ 64 := Int.emod_nonneg _ (by norm_num)
  have h2 : (x + 2 ^ 63) % 2 ^ 64 < 2 ^ 64 := Int.emod_lt_of_pos _ (by norm_num)
  omega

/-- On small naturals `toU64` is the identity. -/
theorem toU64_natCast {i : Nat} (h : (i : Int) < 2 ^ 64) : toU64 (i : Int) = i := by
  unfold toU64
  rw [Int.emod_eq_of_lt (by positivity) h]
  exact Int.toNat_natCast i

/-- Re-interpreting a `u32` bit pattern as `i32` lands in the `i32`
range. -/
theorem u32ToI32_mem {x : Nat} (h : x < 2 ^ 32) :
    -(2 ^ 31) ≤ u32ToI32 x ∧ u32ToI32 x < 2 ^ 31 := by
  unfold u32ToI32
  split <;> push_cast <;> omega

/-! # Claim theorems -/

/-- C1, counterexample: with `a` holding the String `"x"`, the statement
`a += "y"` stores `Number 2` (both operands coerced to `i64`, giving
`1 + 1`), while `a = a + "y"` stores the concatenation `"xy"` — so
reading `a` afterwards differs, refuting the claimed equivalence for
String-valued `a`. -/
theorem C1_counterexample :
    regLookup (resolve rxNone
        (.Assign .PlusEqual .AssignReturn (varStmt "a") (strStmt "y"))
        [("a", .Value (.String "x"))]).1 "a"
      = some (.Value (.Number 2))
  ∧ regLookup (resolve rxNone
        (.Assign .Equal .AssignReturn (varStmt "a")
          (.Operator .Plus [varStmt "a", strStmt "y"]))
        [("a", .Value (.String "x"))]).1 "a"
      = some (.Value (.String "xy"))
  ∧ NaslValue.Number 2 ≠ NaslValue.String "xy" :=
  ⟨rfl, rfl, by simp⟩

/-- C1, amended: the equivalence of `a += b` and `a = a + b` holds for
every prior value of `a` that is neither `String` nor `Data` (and every
value of `b`); in the String/Data cases `+=` coerces both sides to
integers while `+` concatenates. -/
theorem C1_theorem (l r : NaslValue) (h : isTextual l = false) :
    regLookup (resolve rxNone
        (.Assign .PlusEqual .AssignReturn (varStmt "a") (varStmt "b"))
        [("a", .Value l), ("b", .Value r)]).1 "a"
      = regLookup (resolve rxNone
          (.Assign .Equal .AssignReturn (varStmt "a")
            (.Operator .Plus [varStmt "a", varStmt "b"]))
          [("a", .Value l), ("b", .Value r)]).1 "a" := by
  cases l <;> first
    | rfl
    | simp [isTextual] at h

/-- C1, witness for the amended theorem at `a = 5`, `b = "y"`. -/
theorem C1_witness :
    isTextual (.Number 5) = false
  ∧ regLookup (resolve rxNone
        (.Assign .PlusEqual .AssignReturn (varStmt "a") (varStmt "b"))
        [("a", .Value (.Number 5)), ("b", .Value (.String "y"))]).1 "a"
      = regLookup (resolve rxNone
          (.Assign .Equal .AssignReturn (varStmt "a")
            (.Operator .Plus [varStmt "a", varStmt "b"]))
          [("a", .Value (.Number 5)), ("b", .Value (.String "y"))]).1 "a" :=
  ⟨rfl, C1_theorem (.Number 5) (.String "y") rfl⟩

/-- C3, code bug: the binary `>>>` operator does compute the unsigned
right-shift of the 32-bit truncation (`-2 >>> 2` is `1073741823`), but
the compound assignment `>>>=` (token `GreaterGreaterGreaterEqual`,
assign.rs:231) shifts **left**: after `a = -2; a >>>= 2;` the variable
holds `((-2 as u32) << 2) as i64 = 4294967288`, not `1073741823`. -/
theorem C3_theorem :
    (resolve rxNone
        (.Operator .GreaterGreaterGreater [.Operator .Minus [numStmt 2], numStmt 2]) []).2
      = .ok (.Number 1073741823)
  ∧ regLookup (runStmts rxNone
        [.Assign .Equal .AssignReturn (varStmt "a") (.Operator .Minus [numStmt 2]),
         .Assign .GreaterGreaterGreaterEqual .AssignReturn (varStmt "a") (numStmt 2)] []) "a"
      = some (.Value (.Number 4294967288))
  ∧ shrUnsignedAssignComb (.Number (-2)) (.Number 2) = .ok (.Number 4294967288)
  ∧ (4294967288 : Int) ≠ 1073741823 :=
  ⟨rfl, rfl, rfl, by norm_num⟩

/-- C4: assignment through a numeric index materializes an array.
`a[2] = 12` with `a` unbound leaves `a = [Null, Null, 12]`;
`a = 12; a[2] = 12` leaves `a = [12, Null, 12]`; and in general
`prepare_array` turns a non-array current value into element 0 of a
singleton array and pads with `Null` up to `index + 1`. -/
theorem C4_theorem :
    regLookup (runStmts rxNone
        [.Assign .Equal .AssignReturn
          (.Array (identTok "a") (some (numStmt 2)) none) (numStmt 12)] []) "a"
      = some (.Value (.Array [.Null, .Null, .Number 12]))
  ∧ regLookup (runStmts rxNone
        [.Assign .Equal .AssignReturn (varStmt "a") (numStmt 12),
         .Assign .Equal .AssignReturn
          (.Array (identTok "a") (some (numStmt 2)) none) (numStmt 12)] []) "a"
      = some (.Value (.Array [.Number 12, .Null, .Number 12]))
  ∧ (∀ (v : NaslValue) (i : Nat), isArr v = false → (i : Int) < 2 ^ 63 →
      prepare_array (.Number i) v = (i, v :: List.replicate i .Null)) := by
  refine ⟨rfl, rfl, fun v i hv hi => ?_⟩
  have hu : toU64 (i : Int) = i := toU64_natCast (by omega)
  cases v <;>
    simp_all [prepare_array, i64Of, isArr, List.singleton_append]

/-- C4, witness for the `prepare_array` clause at `v = 7`, `i = 2`. -/
theorem C4_witness :
    isArr (.Number 7) = false
  ∧ ((2 : Nat) : Int) < 2 ^ 63
  ∧ prepare_array (.Number (2 : Nat)) (.Number 7)
      = (2, .Number 7 :: List.replicate 2 .Null) :=
  ⟨rfl, by norm_num, C4_theorem.2.2 (.Number 7) 2 rfl (by norm_num)⟩

/-- C5: the postfix builder marks `++`/`--` with `ReturnAssign` and the
prefix builder with `AssignReturn`; evaluating `a = 0; x = a++; y = a;`
yields `x = 0 ∧ y = 1` and `a = 0; x = ++a; y = a;` yields
`x = 1 ∧ y = 1`. -/
theorem C5_theorem :
    (∀ t u : Token,
      as_assign_statement (.Variable t) u .PlusPlus
        = some (.ok (.Continue,
            .Assign .PlusPlus .ReturnAssign (.Variable t) (.NoOp none))))
  ∧ (∀ t u : Token,
      parse_prefix_assign_operator .PlusPlus u (.Variable t)
        = .ok (.Assign .PlusPlus .AssignReturn (.Variable t) (.NoOp none)))
  ∧ (regLookup (runStmts rxNone
        [.Assign .Equal .AssignReturn (varStmt "a") (numStmt 0),
         .Assign .Equal .AssignReturn (varStmt "x")
           (.Assign .PlusPlus .ReturnAssign (varStmt "a") (.NoOp none)),
         .Assign .Equal .AssignReturn (varStmt "y") (varStmt "a")] []) "x"
        = some (.Value (.Number 0))
    ∧ regLookup (runStmts rxNone
        [.Assign .Equal .AssignReturn (varStmt "a") (numStmt 0),
         .Assign .Equal .AssignReturn (varStmt "x")
           (.Assign .PlusPlus .ReturnAssign (varStmt "a") (.NoOp none)),
         .Assign .Equal .AssignReturn (varStmt "y") (varStmt "a")] []) "y"
        = some (.Value (.Number 1)))
  ∧ (regLookup (runStmts rxNone
        [.Assign .Equal .AssignReturn (varStmt "a") (numStmt 0),
         .Assign .Equal .AssignReturn (varStmt "x")
           (.Assign .PlusPlus .AssignReturn (varStmt "a") (.NoOp none)),
         .Assign .Equal .AssignReturn (varStmt "y") (varStmt "a")] []) "x"
        = some (.Value (.Number 1))
    ∧ regLookup (runStmts rxNone
        [.Assign .Equal .AssignReturn (varStmt "a") (numStmt 0),
         .Assign .Equal .AssignReturn (varStmt "x")
           (.Assign .PlusPlus .AssignReturn (varStmt "a") (.NoOp none)),
         .Assign .Equal .AssignReturn (varStmt "y") (varStmt "a")] []) "y"
        = some (.Value (.Number 1))) :=
  ⟨fun _ _ => rfl, fun _ _ => rfl, ⟨rfl, rfl⟩, ⟨rfl, rfl⟩⟩

/-- Evaluating `a++` from `a = m` stores `m + 1` and returns the
previous value `m` (one observable evaluation of the expression). -/
theorem resolve_incr_step (m : Int) (hl : -(2 ^ 63) ≤ m + 1) (hu : m + 1 < 2 ^ 63) :
    resolve rxNone incrStmt [("a", .Value (.Number m))]
      = ([("a", .Value (.Number (m + 1)))], .ok (.Number m)) := by
  show ([("a", ContextType.Value (.Number (wrap64 (m + 1))))], Outcome.ok (.Number m))
      = ([("a", .Value (.Number (m + 1)))], .ok (.Number m))
  rw [wrap64_eq_self hl hu]

/-- The `X` loop body run `k` times on `a++` adds `k` to `a` and never
exits early. -/
theorem xLoop_incr (k : Nat) (m : Int) (h0 : 0 ≤ m) (h : m + k < 2 ^ 63) :
    xLoop (fun r => resolve rxNone incrStmt r) k [("a", .Value (.Number m))]
      = ([("a", .Value (.Number (m + k)))], none) := by
  induction k generalizing m with
  | zero => simp [xLoop]
  | succ k ih =>
    rw [xLoop, resolve_incr_step m (by omega) (by push_cast at h; omega)]
    rw [show ((m + (k + 1 : Nat)) : Int) = (m + 1) + (k : Nat) by push_cast; ring]
    exact ih (m + 1) (by omega) (by push_cast at h ⊢; omega)

/-- C2, counterexample: for `n = 2` the repeat operator `E x n`
evaluates `E` only once, not twice — starting from `a = 0`, evaluating
`(a++) x 2` leaves `a = 1` (the claim's "exactly n times" would leave
`a = 2`) and returns the single evaluation's result. -/
theorem C2_counterexample :
    resolve rxNone (xRepeatStmt 2) [("a", .Value (.Number 0))]
      = ([("a", .Value (.Number 1))], .ok (.Number 0))
  ∧ NaslValue.Number 1 ≠ NaslValue.Number 2 :=
  ⟨rfl, by simp⟩

/-- C2, amended: for every `n` in the `i64` range, `(a++) x n` from
`a = 0` returns `Null` with no evaluation when `n = 0`; otherwise the
evaluator computes the wrapping `i64` difference `n - 1`, runs the loop
`for _ in 1..n-1` and one final evaluation, so the expression is
evaluated `(wrap64 (n - 1) - 1).toNat + 1` times — `n - 1` times for
`n ≥ 2`, exactly once for `n = 1` and for negative `n` above
`i64::MIN`, and `2^63 - 1` times at `n = -2^63` where `n - 1` wraps —
and the final evaluation's result is returned. -/
theorem C2_theorem (n : Int) (_h1 : -(2 ^ 63) ≤ n) (_h2 : n < 2 ^ 63) :
    resolve rxNone (xRepeatStmt n) [("a", .Value (.Number 0))]
      = ([("a", .Value (.Number (if n = 0 then 0
            else ((wrap64 (n - 1) - 1).toNat : Int) + 1)))],
         if n = 0 then .ok .Null
         else .ok (.Number ((wrap64 (n - 1) - 1).toNat : Int))) := by
  by_cases h0 : n = 0
  · subst h0; rfl
  · rw [if_neg h0, if_neg h0]
    obtain ⟨hwl, hwu⟩ := wrap64_mem (n - 1)
    have hx := xLoop_incr (wrap64 (n - 1) - 1).toNat 0 le_rfl (by omega)
    have hstep := resolve_incr_step ((wrap64 (n - 1) - 1).toNat : Int) (by omega) (by omega)
    rw [show ((0 : Int) + (((wrap64 (n - 1) - 1).toNat : Nat) : Int))
        = ((wrap64 (n - 1) - 1).toNat : Int) by omega] at hx
    show (if n = 0 then ([("a", ContextType.Value (.Number 0))], Outcome.ok .Null)
          else
            match xLoop (fun r => resolve rxNone incrStmt r) (wrap64 (n - 1) - 1).toNat
                [("a", ContextType.Value (.Number 0))] with
            | (reg2, none) => resolve rxNone incrStmt reg2
            | (reg2, some o) => (reg2, o))
        = ([("a", .Value (.Number (((wrap64 (n - 1) - 1).toNat : Int) + 1)))],
           .ok (.Number ((wrap64 (n - 1) - 1).toNat : Int)))
    rw [if_neg h0, hx]
    exact hstep

/-- C2, witness for the amended theorem at `n = 5`: four evaluations. -/
theorem C2_witness :
    (-(2 ^ 63) ≤ (5 : Int))
  ∧ ((5 : Int) < 2 ^ 63)
  ∧ resolve rxNone (xRepeatStmt 5) [("a", .Value (.Number 0))]
      = ([("a", .Value (.Number (if (5 : Int) = 0 then 0
            else ((wrap64 ((5 : Int) - 1) - 1).toNat : Int) + 1)))],
         if (5 : Int) = 0 then .ok .Null
         else .ok (.Number ((wrap64 ((5 : Int) - 1) - 1).toNat : Int))) :=
  ⟨by norm_num, by norm_num, C2_theorem 5 (by norm_num) (by norm_num)⟩

/-- C6, counterexample: reading `a[1]` while `a` holds the one-element
array `[3]` yields the `InterpretError` "positiong 1 not found"
(interpreter.rs:168), not `Null`. -/
theorem C6_counterexample :
    resolve rxNone (.Array (identTok "a") (some (numStmt 1)) none)
        [("a", .Value (.Array [.Number 3]))]
      = ([("a", .Value (.Array [.Number 3]))], .err ⟨"positiong 1 not found"⟩)
  ∧ ∀ e : InterpretError, Outcome.err e ≠ .ok .Null :=
  ⟨rfl, fun _ h => nomatch h⟩

/-- C6, amended: a `Variable` read of a name bound in no frame yields
`Null` (via the spec-modelled `Register::named` default), but an
`Array(name, Some(idx))` read whose integer index is at or past the
bound array's length yields an `InterpretError`, not `Null`. -/
theorem C6_theorem :
    (∀ (reg : Register) (k : String) (pos : Nat × Nat), regLookup reg k = none →
      resolve rxNone (.Variable ⟨.Identifier (.Undefined k), pos⟩) reg
        = (reg, .ok .Null))
  ∧ (∀ (v : List NaslValue) (i : Nat), v.length ≤ i → (i : Int) < 2 ^ 63 →
      resolve rxNone (.Array (identTok "a") (some (numStmt i)) none)
          [("a", .Value (.Array v))]
        = ([("a", .Value (.Array v))],
           .err ⟨"positiong " ++ toString i ++ " not found"⟩)) := by
  constructor
  · intro reg k pos h
    have e : named reg k = .Value .Null := by unfold named; rw [h]; rfl
    show (match named reg k with
          | ContextType.Function _ _ => (reg, Outcome.panic .unimplemented)
          | ContextType.Value result => (reg, Outcome.ok result))
        = (reg, Outcome.ok .Null)
    rw [e]
  · intro v i hlen hi
    have hu : toU64 ((i : Nat) : Int) = i := toU64_natCast (by omega)
    show (match v.get? (toU64 ((i : Nat) : Int)) with
          | some r => ([("a", ContextType.Value (.Array v))], Outcome.ok r)
          | none => ([("a", ContextType.Value (.Array v))],
              Outcome.err ⟨"positiong " ++ toString (toU64 ((i : Nat) : Int)) ++ " not found"⟩))
        = ([("a", ContextType.Value (.Array v))],
           .err ⟨"positiong " ++ toString i ++ " not found"⟩)
    rw [hu, List.get?_eq_none.mpr hlen]

/-- C6, witness: an unbound `zzz` reads as `Null`, and `a[1]` on the
bound `[3]` errors. -/
theorem C6_witness :
    (regLookup ([] : Register) "zzz" = none)
  ∧ resolve rxNone (.Variable ⟨.Identifier (.Undefined "zzz"), (0, 0)⟩) []
      = ([], .ok .Null)
  ∧ ([NaslValue.Number 3].length ≤ 1)
  ∧ (((1 : Nat) : Int) < 2 ^ 63)
  ∧ resolve rxNone (.Array (identTok "a") (some (numStmt 1)) none)
        [("a", .Value (.Array [.Number 3]))]
      = ([("a", .Value (.Array [.Number 3]))],
         .err ⟨"positiong " ++ toString (1 : Nat) ++ " not found"⟩) :=
  ⟨rfl, C6_theorem.1 [] "zzz" (0, 0) rfl, by norm_num, by norm_num,
   C6_theorem.2 [.Number 3] 1 (by norm_num) (by norm_num)⟩

/-- C7, counterexample: the parser-producible nodes `1 / 0;` and
`1 % 0;` make the evaluator panic (Rust division by zero,
operator.rs:124-125), refuting "never panics". -/
theorem C7_counterexample :
    resolve rxNone (.Operator .Slash [numStmt 1, numStmt 0]) []
      = ([], .panic .divisionByZero)
  ∧ resolve rxNone (.Operator .Percent [numStmt 1, numStmt 0]) []
      = ([], .panic .divisionByZero) :=
  ⟨rfl, rfl⟩

/-- C7, amended: the value-level operator evaluator never panics except
for `/` and `%` when the right operand's integer coercion is `0` (or the
`i64::MIN / -1` overflow pair); every other category yields a value or
an in-band error.  (The `X` category re-evaluates statements and is
excluded here; arithmetic is modelled with release-mode wrapping.) -/
theorem C7_theorem (rx : RxEngine) (cat : Category) (a : NaslValue)
    (b : Option NaslValue) (hx : cat ≠ .X)
    (hdiv : (cat = .Slash ∨ cat = .Percent) →
      i64DivOk (i64Of a) ((b.map i64Of).getD 0)) :
    (binOpEval rx cat a b).isPanic = false := by
  cases cat
  case X => exact absurd rfl hx
  case Slash =>
    obtain ⟨hz, hm⟩ := hdiv (Or.inl rfl)
    simp only [binOpEval]
    rw [if_neg hz, if_neg hm]
    rfl
  case Percent =>
    obtain ⟨hz, hm⟩ := hdiv (Or.inr rfl)
    simp only [binOpEval]
    rw [if_neg hz, if_neg hm]
    rfl
  case Plus => cases a <;> rfl
  case Minus => cases a <;> cases b <;> rfl
  case EqualTilde =>
    simp only [binOpEval, matchRegex]
    cases rx ((b.map valToString).getD "") <;> rfl
  case BangTilde =>
    simp only [binOpEval, notMatchRegex, matchRegex]
    cases rx ((b.map valToString).getD "") <;> rfl
  all_goals rfl

/-- C7, witness for the amended theorem at the `+` category. -/
theorem C7_witness :
    (Category.Plus ≠ Category.X)
  ∧ ((Category.Plus = .Slash ∨ Category.Plus = .Percent) →
      i64DivOk (i64Of .Null) (((none : Option NaslValue).map i64Of).getD 0))
  ∧ (binOpEval rxNone .Plus .Null none).isPanic = false :=
  ⟨fun h => Category.noConfusion h,
   fun h => h.elim (fun h1 => Category.noConfusion h1) (fun h2 => Category.noConfusion h2),
   C7_theorem rxNone .Plus .Null none (fun h => Category.noConfusion h)
     (fun h => h.elim (fun h1 => Category.noConfusion h1)
       (fun h2 => Category.noConfusion h2))⟩

/-- A run of characters all satisfying the predicate is consumed whole by
`skip_while`. -/
theorem skipWhileAccL_all (p : Char → Bool) (l : List Char) (k : Nat)
    (h : ∀ c ∈ l, p c = true) :
    skipWhileAccL p l k = (l, ⟨[], k + utf8Total l⟩) := by
  induction l generalizing k with
  | nil => simp [skipWhileAccL, utf8Total]
  | cons c cs ih =>
    rw [skipWhileAccL, if_pos (h c (List.mem_cons_self c cs))]
    rw [ih (k + c.utf8Size) (fun d hd => h d (List.mem_cons_of_mem c hd))]
    simp [utf8Total, Nat.add_assoc]

/-- C8, counterexample: the double-quote tokenizer's predicate stops at
the very next `"` even when it is escaped — tokenizing the four bytes
`"a\"` yields a **closed** `String` token with body `a\` (span `(1,3)`),
where the claim requires the escaped `\"` not to terminate (which would
leave the string unclosed at end-of-input). -/
theorem C8_counterexample :
    tokenize "\"a\\\"" = [⟨.String "a\\", (1, 3)⟩]
  ∧ ∀ u : UnclosedCategory, Category.String "a\\" ≠ .Unclosed u :=
  ⟨rfl, fun _ h => Category.noConfusion h⟩

/-- C8, amended: a double-quoted string is terminated by the next `"`
regardless of escaping; the escape replacements
`\n \\ \" \' \r \t` are applied to the body; and reaching end-of-input
with no `"` at all yields an in-band `Unclosed(Unquotable)` token. -/
theorem C8_theorem :
    (∀ body : List Char, (∀ c ∈ body, c ≠ '"') →
      nextToken ⟨'"' :: body, 0⟩
        = some (⟨.Unclosed (.String .Unquotable), (1, 1 + utf8Total body)⟩,
                ⟨[], 1 + utf8Total body⟩))
  ∧ tokenize "\"a\\nb\"" = [⟨.String "a\nb", (1, 5)⟩]
  ∧ tokenize "\"ab" = [⟨.Unclosed (.String .Unquotable), (1, 3)⟩] := by
  refine ⟨fun body h => ?_, rfl, rfl⟩
  have hs := skipWhileAccL_all (fun ch => ch ≠ '"') body 1
    (fun c hc => decide_eq_true (h c hc))
  show some (tokenize_string .Unquotable
        (fun cu => skipWhileAcc (fun ch => ch ≠ '"') cu) ⟨body, 1⟩)
      = some (⟨.Unclosed (.String .Unquotable), (1, 1 + utf8Total body)⟩,
              ⟨[], 1 + utf8Total body⟩)
  unfold tokenize_string skipWhileAcc
  simp only [ne_eq, decide_not] at hs
  simp [hs, Cursor.isEof, List.isEmpty]

/-- C8, witness for the end-of-input clause at body `ab`. -/
theorem C8_witness :
    (∀ c ∈ ['a', 'b'], c ≠ '"')
  ∧ nextToken ⟨'"' :: ['a', 'b'], 0⟩
      = some (⟨.Unclosed (.String .Unquotable), (1, 1 + utf8Total ['a', 'b'])⟩,
              ⟨[], 1 + utf8Total ['a', 'b']⟩) :=
  ⟨by decide, C8_theorem.1 ['a', 'b'] (by decide)⟩

/-- C9, counterexample: in the source `0b01` the only token is
`Number(1)` with span `(2,4)` — the base-prefix bytes `0b` lie in no
token span although byte 0 is not whitespace, so concatenating spans
plus whitespace/comments cannot reconstruct the source. -/
theorem C9_counterexample :
    tokenize "0b01" = [⟨.Number 1, (2, 4)⟩]
  ∧ inSomeSpan (tokenize "0b01") 0 = false
  ∧ ('0' : Char).isWhitespace = false :=
  ⟨rfl, rfl, rfl⟩

/-- C9, amended: concatenating token spans plus whitespace and comments
does not reconstruct the source in general, because string tokens' spans
exclude the delimiting quote characters and number tokens' spans exclude
the `0x`/`0b`/leading-octal-`0` prefix bytes: `0b01` yields the single
token `Number(1)` with span `(2,4)` (bytes 0-1 in no span) and `"ab"`
yields span `(1,3)` (quote bytes 0 and 3 in no span).  By contrast, the
concrete prefix- and quote-free sources `1+2;` and `a=12;` are covered
byte-for-byte. -/
theorem C9_theorem :
    tokenize "0b01" = [⟨.Number 1, (2, 4)⟩]
  ∧ tokenize "\"ab\"" = [⟨.String "ab", (1, 3)⟩]
  ∧ inSomeSpan (tokenize "\"ab\"") 0 = false
  ∧ inSomeSpan (tokenize "\"ab\"") 3 = false
  ∧ tokenize "1+2;" = [⟨.Number 1, (0, 1)⟩, ⟨.Plus, (1, 2)⟩,
      ⟨.Number 2, (2, 3)⟩, ⟨.Semicolon, (3, 4)⟩]
  ∧ ((List.range 4).all fun i => inSomeSpan (tokenize "1+2;") i) = true
  ∧ tokenize "a=12;" = [⟨.Identifier (.Undefined "a"), (0, 1)⟩, ⟨.Equal, (1, 2)⟩,
      ⟨.Number 12, (2, 4)⟩, ⟨.Semicolon, (4, 5)⟩]
  ∧ ((List.range 5).all fun i => inSomeSpan (tokenize "a=12;") i) = true :=
  ⟨rfl, rfl, rfl, rfl, rfl, rfl, rfl, rfl⟩

/-- C10: `**` is evaluated in unsigned 32-bit arithmetic — both operands
truncated to `u32`, `u32::pow` applied (wrapping), the result re-cast
through `i32` — so the result always lies in the `i32` range; `2 ** 32`
wraps to `0 ≠ 2^32`, and a base outside the `u32` range wraps
(`(2^32 + 2) ** 3` equals `2 ** 3`). -/
theorem C10_theorem :
    (∀ (rx : RxEngine) (a b : NaslValue), ∃ n : Int,
        binOpEval rx .StarStar a (some b) = .ok (.Number n)
        ∧ -(2 ^ 31) ≤ n ∧ n < 2 ^ 31)
  ∧ (resolve rxNone (.Operator .StarStar [numStmt 2, numStmt 32]) []).2
      = .ok (.Number 0)
  ∧ ((0 : Int) ≠ 2 ^ 32)
  ∧ binOpEval rxNone .StarStar (.Number (2 ^ 32 + 2)) (some (.Number 3))
      = binOpEval rxNone .StarStar (.Number 2) (some (.Number 3)) := by
  refine ⟨fun rx a b => ?_, rfl, by norm_num, rfl⟩
  obtain ⟨hl, hr⟩ := u32ToI32_mem
    (Nat.mod_lt (toU32 (i64Of a) ^ toU32 (((some b).map i64Of).getD 0))
      (by norm_num : 0 < 2 ^ 32))
  exact ⟨_, rfl, hl, hr⟩

end NASL
